import Mathlib

/-!
Shallow embedding of `src/tmps/star/tpmps.py` (class `StarTPMPS`), the
evolution orchestrator for purified matrix-product states (pmps) in a star
topology.  The chain representation and the external library routines
(mpnum, tmps.utils) are abstracted as a type parameter `Chain` together
with an `Env` record of the operations `StarTPMPS` invokes on them; local
Trotter operators are abstracted as a type `Op` with a site count.
Overlaps, fidelities, norms and Trotter-error estimates are modelled as
rationals.  Events emitted during one `evolve()` call are recorded in a
trace so that statements about *which* compression routine runs when can
be made precise.
-/

/-- A local-operator type paired with the library surface `StarTPMPS` uses.
`contractAt` embeds `mp.partialdot(trotter_mpo, psi_t, start_at=..., axes=...)`
(the axes pair is fixed at construction and carried implicitly here);
`compress` embeds `psi_t.compress(**state_compression_kwargs)` returning the
retained fidelity (overlap) together with the compressed chain;
`lcCompress` embeds `self.lc.compress(psi_t, start_at)` (local rank
reduction); `compress_pmps_sites` embeds
`compress_pmps_sites(psi_t, relerr=..., rank=..., stable=..., to_cform=...)`;
`compress_pmps` embeds `compress_pmps(psi, to_cform=..., **kwargs)` used to
prepare an initial state; `canonicalize_to` embeds
`canonicalize_to(psi, to_cform=...)`; `norm` embeds `mp.norm(psi)` and
`scalarDiv` the in-place division `psi /= x`. -/
structure Env (Chain Op : Type) where
  contractAt : Op → Chain → ℕ → Chain
  compress : Chain → ℚ × Chain
  lcCompress : Chain → ℕ → Chain
  compress_pmps_sites : Chain → Chain
  compress_pmps : Chain → Chain
  canonicalize_to : Chain → Chain
  norm : Chain → ℚ
  scalarDiv : Chain → ℚ → Chain
  opLen : Op → ℕ

/-- The `StarMPPropagator` fields read by `StarTPMPS`: chain length `L`,
distinguished `system_index`, the ordered `trotter_steps` as
(offset, local operator) pairs for one sweep, the per-step
`step_trotter_error` estimate, and the two flags asserted at
construction (`ancilla_sites`, `build_adj`). -/
structure Propagator (Op : Type) where
  L : ℕ
  system_index : ℕ
  trotter_steps : List (ℕ × Op)
  step_trotter_error : ℚ
  ancilla_sites : Bool
  build_adj : Bool
deriving DecidableEq

/-- Modelled from the spec: the configuration fields stored by the shared
base class `StarTMPBase` (that class is not under `src/`; only their
consumers in `StarTPMPS.evolve` are).  `canonicalize_every_step`,
`full_compression` and `final_compression` are the booleans the evolve
step branches on; `compress_sites_step` is the configured cadence period
for the ancilla-rank compressor (spec §6: "ancilla-rank-only compression
(relative error, max rank, stability mode, cadence period)").  The
relative-error / rank / stability parameters of the ancilla compressor are
folded into `Env.compress_pmps_sites`. -/
structure Config where
  canonicalize_every_step : Bool
  full_compression : Bool
  final_compression : Bool
  compress_sites_step : ℤ
deriving DecidableEq

/-- The mutable fields of a `StarTPMPS` object that the claims concern:
the chain `psi_t`, the ancilla-compression counter `pmps_compression_step`
(a Python int, hence `ℤ`: `evolve` decrements it), the three overlap
accumulators, the accumulated `trotter_error`, and the step counter
`stepno` (held by the shared base class, incremented by `evolve`). -/
structure TPMPS (Chain : Type) where
  psi_t : Chain
  pmps_compression_step : ℤ
  last_overlap : ℚ
  cumulative_overlap : ℚ
  base_overlap : ℚ
  trotter_error : ℚ
  stepno : ℕ
deriving DecidableEq

/-- Events recorded while replaying one `evolve()` call: a chain-wide
compression inside the sweep (`fullCompress`, with its retained fidelity),
a local rank reduction (`localCompress`), a run of the ancilla-rank
compressor `compress_pmps_sites` (`ancillaCompress`), the chain-wide
compression after the sweep (`finalCompress`), and a canonicalization. -/
inductive CompEvent where
  | fullCompress (offset : ℕ) (fidelity : ℚ)
  | localCompress (offset : ℕ)
  | ancillaCompress
  | finalCompress (fidelity : ℚ)
  | canonicalize
deriving DecidableEq

/-- Whether a trace contains a chain-wide in-sweep compression. -/
def hasFullCompress (tr : List CompEvent) : Bool :=
  tr.any fun e => match e with
    | CompEvent.fullCompress _ _ => true
    | _ => false

/-- Whether a trace contains a local rank reduction. -/
def hasLocalCompress (tr : List CompEvent) : Bool :=
  tr.any fun e => match e with
    | CompEvent.localCompress _ => true
    | _ => false

/-- Whether a trace contains a run of the ancilla-rank compressor. -/
def hasAncillaCompress (tr : List CompEvent) : Bool :=
  tr.any fun e => match e with
    | CompEvent.ancillaCompress => true
    | _ => false

/-- The sweep-turn condition of `StarTPMPS.evolve`:
`(start_at == self.propagator.L - 2 or start_at == 0) and start_at != last_start_at`.
`L - 2` is computed over `ℤ` because Python subtraction does not truncate. -/
def isTurn (L : ℕ) (start_at last_start_at : ℕ) : Bool :=
  ((start_at : ℤ) == (L : ℤ) - 2 || start_at == 0) && start_at != last_start_at

/-- The loop-local state of the `for (start_at, trotter_mpo) in
self.propagator.trotter_steps` loop in `StarTPMPS.evolve`: the chain, the
per-step `overlap` accumulator, the `pmps_compression_step` counter and
the `last_start_at` tracker. -/
structure LoopSt (Chain : Type) where
  psi_t : Chain
  overlap : ℚ
  pmps_compression_step : ℤ
  last_start_at : ℕ
deriving DecidableEq

namespace StarTPMPS

variable {Chain Op : Type}

/-- The compression-policy branch of the loop body of `StarTPMPS.evolve`:
if `self.full_compression`, compress the whole chain (accumulating the
retained fidelity into `overlap`) when the sweep-turn condition holds;
otherwise locally compress at `start_at` when the local operator spans
more than one site. -/
def compressionPolicy (env : Env Chain Op) (cfg : Config) (L : ℕ)
    (psi : Chain) (overlap : ℚ) (start_at last_start_at : ℕ) (op : Op) :
    Chain × ℚ × List CompEvent :=
  if cfg.full_compression then
    if isTurn L start_at last_start_at then
      ((env.compress psi).2, overlap * (env.compress psi).1,
        [CompEvent.fullCompress start_at (env.compress psi).1])
    else (psi, overlap, [])
  else
    if 1 < env.opLen op then
      (env.lcCompress psi start_at, overlap, [CompEvent.localCompress start_at])
    else (psi, overlap, [])

/-- The ancilla-compression cadence branch of the loop body of
`StarTPMPS.evolve`: at a sweep turn, increment `pmps_compression_step`;
when (incremented counter) - 1 equals `compress_sites_step`, run
`compress_pmps_sites` over the whole chain and set the counter back
to 1. -/
def cadenceStep (env : Env Chain Op) (cfg : Config) (L : ℕ)
    (psi : Chain) (pmps_compression_step : ℤ) (start_at last_start_at : ℕ) :
    Chain × ℤ × List CompEvent :=
  if isTurn L start_at last_start_at then
    if pmps_compression_step + 1 - 1 == cfg.compress_sites_step then
      (env.compress_pmps_sites psi, 1, [CompEvent.ancillaCompress])
    else (psi, pmps_compression_step + 1, [])
  else (psi, pmps_compression_step, [])

/-- One iteration of the loop in `StarTPMPS.evolve`: contract the local
operator into the chain at `p.1`, apply the compression policy, apply the
cadence branch, and record `last_start_at := start_at`. -/
def evolveBody (env : Env Chain Op) (cfg : Config) (L : ℕ)
    (s : LoopSt Chain) (p : ℕ × Op) : LoopSt Chain × List CompEvent :=
  let psi1 := env.contractAt p.2 s.psi_t p.1
  let c := compressionPolicy env cfg L psi1 s.overlap p.1 s.last_start_at p.2
  let a := cadenceStep env cfg L c.1 s.pmps_compression_step p.1 s.last_start_at
  (⟨a.1, c.2.1, a.2.1, p.1⟩, c.2.2 ++ a.2.2)

/-- The whole loop of `StarTPMPS.evolve`, iterating `evolveBody` over the
propagator's trotter steps and concatenating the traces. -/
def runSweep (env : Env Chain Op) (cfg : Config) (L : ℕ) :
    LoopSt Chain × List CompEvent → List (ℕ × Op) → LoopSt Chain × List CompEvent
  | acc, [] => acc
  | acc, p :: rest =>
      let b := evolveBody env cfg L acc.1 p
      runSweep env cfg L (b.1, acc.2 ++ b.2) rest

/-- The prologue and loop of `StarTPMPS.evolve`: initialize
`overlap := self.base_overlap` and `last_start_at := self.system_index`,
canonicalize once when `canonicalize_every_step` is off, then run the
sweep. -/
def evolveLoop (env : Env Chain Op) (cfg : Config) (prop : Propagator Op)
    (st : TPMPS Chain) : LoopSt Chain × List CompEvent :=
  runSweep env cfg prop.L
    (⟨if !cfg.canonicalize_every_step then env.canonicalize_to st.psi_t else st.psi_t,
      st.base_overlap, st.pmps_compression_step, prop.system_index⟩,
     if !cfg.canonicalize_every_step then [CompEvent.canonicalize] else [])
    prop.trotter_steps

/-- The epilogue of `StarTPMPS.evolve` before normalization: a final
chain-wide compression when `final_compression` is configured (multiplied
into the per-step overlap), otherwise a re-canonicalization when
`canonicalize_every_step` is off. -/
def evolveFinal (env : Env Chain Op) (cfg : Config) (fin : LoopSt Chain) :
    Chain × ℚ × List CompEvent :=
  if cfg.final_compression then
    ((env.compress fin.psi_t).2, fin.overlap * (env.compress fin.psi_t).1,
      [CompEvent.finalCompress (env.compress fin.psi_t).1])
  else if !cfg.canonicalize_every_step then
    (env.canonicalize_to fin.psi_t, fin.overlap, [CompEvent.canonicalize])
  else (fin.psi_t, fin.overlap, [])

/-- `StarTPMPS._normalize_state`: the step-internal normalization hook,
`self.psi_t /= mp.norm(self.psi_t)` (source name carries a leading
underscore). -/
def normalize_state_internal (env : Env Chain Op) (st : TPMPS Chain) : TPMPS Chain :=
  { st with psi_t := env.scalarDiv st.psi_t (env.norm st.psi_t) }

/-- `StarTPMPS.normalize_state`: the externally callable normalization,
`self.psi_t /= mp.norm(self.psi_t)`. -/
def normalize_state (env : Env Chain Op) (st : TPMPS Chain) : TPMPS Chain :=
  { st with psi_t := env.scalarDiv st.psi_t (env.norm st.psi_t) }

/-- `StarTPMPS.evolve`: one Trotterized time step, returning the new
object state together with the trace of compression / canonicalization
events.  After the sweep and epilogue the chain is normalized via the
internal hook, the per-step overlap is committed into
`cumulative_overlap` and `last_overlap`, `pmps_compression_step` is
decremented by one when `system_index == 0`, the per-step Trotter error
estimate is accumulated and `stepno` is incremented. -/
def evolve (env : Env Chain Op) (cfg : Config) (prop : Propagator Op)
    (st : TPMPS Chain) : TPMPS Chain × List CompEvent :=
  let r := evolveLoop env cfg prop st
  let e2 := evolveFinal env cfg r.1
  let stN := normalize_state_internal env { st with psi_t := e2.1 }
  ({ stN with
      pmps_compression_step :=
        if prop.system_index == 0 then r.1.pmps_compression_step - 1
        else r.1.pmps_compression_step,
      last_overlap := e2.2.1,
      cumulative_overlap := st.cumulative_overlap * e2.2.1,
      trotter_error := st.trotter_error + prop.step_trotter_error,
      stepno := st.stepno + 1 },
   r.2 ++ e2.2.2)

/-- `N` successive calls of `StarTPMPS.evolve` (traces discarded). -/
def evolveN (env : Env Chain Op) (cfg : Config) (prop : Propagator Op) :
    ℕ → TPMPS Chain → TPMPS Chain
  | 0, st => st
  | n + 1, st => (evolve env cfg prop (evolveN env cfg prop n st)).1

/-- `StarTPMPS.__init__`: fails (Python `assert`) unless the propagator
has `ancilla_sites` and not `build_adj`; prepares the initial chain by
canonicalizing it when `psi_0_compression_kwargs is None` (here the flag
`psi_0_compression_kwargs = false`) and by `compress_pmps` otherwise,
then normalizes via `normalize_state` and initializes
`pmps_compression_step := 1`, the three overlaps to 1, `trotter_error`
to 0.  The base-class constructor contribution (not under `src/`) is
modelled from the spec: it installs `psi_0` as `psi_t` and starts the
step counter at 0. -/
def init (env : Env Chain Op) (prop : Propagator Op)
    (psi_0 : Chain) (psi_0_compression_kwargs : Bool) : Option (TPMPS Chain) :=
  if prop.ancilla_sites && !prop.build_adj then
    let psi1 := if psi_0_compression_kwargs then env.compress_pmps psi_0
                else env.canonicalize_to psi_0
    some (normalize_state env
      { psi_t := psi1
        pmps_compression_step := 1
        last_overlap := 1
        cumulative_overlap := 1
        base_overlap := 1
        trotter_error := 0
        stepno := 0 })
  else none

/-- Modelled from the spec: `StarTMPBase.reset` (the shared base class is
not under `src/`).  Per spec §4.5, the base reset installs the supplied
new initial state when one is given, and when none is given keeps the
existing chain and its history untouched; its compression-parameter
storage updates touch no field modelled here. -/
def baseReset (st : TPMPS Chain) (psi_0 : Option Chain) : TPMPS Chain :=
  match psi_0 with
  | none => st
  | some p => { st with psi_t := p }

/-- `StarTPMPS.reset`: when a new `psi_0` is supplied it is canonicalized
(or compressed, when `psi_0_compression_kwargs` is given) in place, then
`self.normalize_state()` is called — which normalizes the *current*
`self.psi_t`, since the new state is only installed by the base-class
reset afterwards — the counters are reset
(`pmps_compression_step := 0`, overlaps to 1, `trotter_error := 0`,
`stepno := 0`) and the base reset installs the prepared `psi_0`.  The
second component of the result is the final value of the caller's
`psi_0` argument (the object is mutated in place by
`canonicalize_to` / `compress_pmps`). -/
def reset (env : Env Chain Op) (st : TPMPS Chain)
    (psi_0 : Option Chain) (psi_0_compression_kwargs : Bool) :
    TPMPS Chain × Option Chain :=
  match psi_0 with
  | none => (baseReset st none, none)
  | some p =>
    let p1 := if psi_0_compression_kwargs then env.compress_pmps p
              else env.canonicalize_to p
    let st1 := normalize_state env st
    let st2 : TPMPS Chain :=
      { st1 with
        pmps_compression_step := 0
        last_overlap := 1
        cumulative_overlap := 1
        base_overlap := 1
        trotter_error := 0
        stepno := 0 }
    (baseReset st2 (some p1), some p1)

end StarTPMPS

/-- A concrete instantiation for witnesses and counterexamples: chains are
rationals (think of a single-site scalar chain), local operators are their
own site counts, contraction and the compressors act trivially with
retained fidelity 1, the norm is the absolute value. -/
def concEnv : Env ℚ ℕ :=
  { contractAt := fun _ c _ => c
    compress := fun c => (1, c)
    lcCompress := fun c _ => c
    compress_pmps_sites := fun c => c
    compress_pmps := fun c => c
    canonicalize_to := fun c => c
    norm := fun c => if c < 0 then -c else c
    scalarDiv := fun c q => c / q
    opLen := fun n => n }

/-- A concrete propagator over a 4-site chain with system index 2,
a star sweep, unit per-step Trotter error, two-site operators. -/
def concProp : Propagator ℕ :=
  { L := 4
    system_index := 2
    trotter_steps := [(1, 2), (0, 2), (1, 2), (2, 2), (2, 2), (1, 2)]
    step_trotter_error := 1
    ancilla_sites := true
    build_adj := false }

/-- A concrete configuration: no full or final compression, no
per-contraction canonicalization, cadence period 5. -/
def concCfg : Config :=
  { canonicalize_every_step := false
    full_compression := false
    final_compression := false
    compress_sites_step := 5 }

/-- A concrete freshly-constructed orchestrator state. -/
def concSt : TPMPS ℚ :=
  { psi_t := 1, pmps_compression_step := 1,
    last_overlap := 1, cumulative_overlap := 1, base_overlap := 1,
    trotter_error := 0, stepno := 0 }

/-- A configuration whose cadence period is 3, for exercising the
ancilla-compression cadence. -/
def cadCfg : Config :=
  { canonicalize_every_step := false
    full_compression := false
    final_compression := false
    compress_sites_step := 3 }

/-- A loop state sitting just before its third sweep turn since the last
ancilla compression (`pmps_compression_step = 3`, previous offset 2). -/
def cadLoopSt : LoopSt ℚ :=
  { psi_t := 1, overlap := 1, pmps_compression_step := 3, last_start_at := 2 }

/-- A configuration with full-sweep compression disabled, used to refute
the flag-free reading of the compression policy. -/
def noFullCfg : Config :=
  { canonicalize_every_step := false
    full_compression := false
    final_compression := false
    compress_sites_step := 5 }

/-- A loop state whose previous offset is 2, so that offset 0 is a sweep
turn. -/
def turnLoopSt : LoopSt ℚ :=
  { psi_t := 1, overlap := 1, pmps_compression_step := 1, last_start_at := 2 }

/-- C9: the externally callable normalization `normalize_state` and the
step-internal hook `_normalize_state` are extensionally equal — both
divide the chain by its L2 norm and produce the same state. -/
theorem claim_C9_normalization_hooks_agree {Chain Op : Type}
    (env : Env Chain Op) (st : TPMPS Chain) :
    StarTPMPS.normalize_state_internal env st = StarTPMPS.normalize_state env st :=
  rfl

/-- C5: `reset()` with `psi_0 = None` leaves the step counter, the three
overlap accumulators, the accumulated Trotter error, the cadence counter
and the chain itself unchanged (the whole modelled state is unchanged). -/
theorem claim_C5_reset_none_is_frame {Chain Op : Type}
    (env : Env Chain Op) (st : TPMPS Chain) (b : Bool) :
    StarTPMPS.reset env st none b = (st, none) :=
  rfl

/-- C8: construction succeeds exactly when the propagator was built with
ancilla-aware handling (`ancilla_sites`) and not in adjoint mode
(`build_adj`); violating either assertion is fatal, and a propagator
satisfying both never fails these checks. -/
theorem claim_C8_init_assertions {Chain Op : Type}
    (env : Env Chain Op) (prop : Propagator Op) (psi_0 : Chain) (b : Bool) :
    (StarTPMPS.init env prop psi_0 b).isSome = true ↔
      (prop.ancilla_sites = true ∧ prop.build_adj = false) := by
  unfold StarTPMPS.init
  cases h1 : prop.ancilla_sites <;> cases h2 : prop.build_adj <;> simp

/-- C4 fails as stated: `reset()` with a new state sets
`pmps_compression_step` to 0, not to its construction-time initial value,
which is 1 (`StarTPMPS.init` starts it at 1).  Concretely, resetting any
orchestrator state with a new chain leaves the counter at 0. -/
theorem claim_C4_counterexample :
    ¬ (∀ (st : TPMPS ℚ) (p : ℚ) (b : Bool),
        (StarTPMPS.reset concEnv st (some p) b).1.stepno = 0
        ∧ (StarTPMPS.reset concEnv st (some p) b).1.cumulative_overlap = 1
        ∧ (StarTPMPS.reset concEnv st (some p) b).1.last_overlap = 1
        ∧ (StarTPMPS.reset concEnv st (some p) b).1.base_overlap = 1
        ∧ (StarTPMPS.reset concEnv st (some p) b).1.trotter_error = 0
        ∧ (StarTPMPS.reset concEnv st (some p) b).1.pmps_compression_step = 1) := by
  intro h
  exact (by decide : ¬ ((0 : ℤ) = 1)) (h concSt 1 false).2.2.2.2.2

/-- C4 (amended): `reset()` with a new initial state sets the step counter
to 0, the cumulative, last-step and base overlaps to 1, the accumulated
Trotter error to 0, and `pmps_compression_step` to 0 — one below its
construction-time initial value 1. -/
theorem claim_C4_amended_reset_counters {Chain Op : Type}
    (env : Env Chain Op) (st : TPMPS Chain) (p : Chain) (b : Bool) :
    (StarTPMPS.reset env st (some p) b).1.stepno = 0
    ∧ (StarTPMPS.reset env st (some p) b).1.cumulative_overlap = 1
    ∧ (StarTPMPS.reset env st (some p) b).1.last_overlap = 1
    ∧ (StarTPMPS.reset env st (some p) b).1.base_overlap = 1
    ∧ (StarTPMPS.reset env st (some p) b).1.trotter_error = 0
    ∧ (StarTPMPS.reset env st (some p) b).1.pmps_compression_step = 0 :=
  ⟨rfl, rfl, rfl, rfl, rfl, rfl⟩

/-- C3 is right and the code is wrong: `reset()` calls
`self.normalize_state()` *before* the base reset installs the new state,
so it normalizes the outgoing chain (contradicting its own comment
"Normalize current initial psi_t (=psi_0)") and the installed chain keeps
its unnormalized value.  Here: resetting with the scalar chain 2 (norm 2,
canonicalization the identity) installs the chain 2, whose norm is 2,
not 1. -/
theorem claim_C3_reset_skips_normalization :
    (StarTPMPS.reset concEnv concSt (some 2) false).1.psi_t = 2
    ∧ concEnv.norm ((StarTPMPS.reset concEnv concSt (some 2) false).1.psi_t) = 2
    ∧ (2 : ℚ) ≠ 1 := by
  refine ⟨rfl, ?_, by norm_num⟩
  norm_num [StarTPMPS.reset, StarTPMPS.baseReset, StarTPMPS.normalize_state, concEnv, concSt]

/-- C10: the caller-supplied `psi_0` is mutated in place — canonicalized,
or compressed when `psi_0_compression_kwargs` is given — before the base
reset installs it as the orchestrator's chain; after the call the argument
holds the prepared value (and so no longer its original value whenever the
preparation changed it), and the installed chain is that same prepared
value. -/
theorem claim_C10_reset_mutates_argument {Chain Op : Type}
    (env : Env Chain Op) (st : TPMPS Chain) (p : Chain) (b : Bool) :
    (StarTPMPS.reset env st (some p) b).2
      = some (if b then env.compress_pmps p else env.canonicalize_to p)
    ∧ (StarTPMPS.reset env st (some p) b).1.psi_t
      = (if b then env.compress_pmps p else env.canonicalize_to p)
    ∧ ((if b then env.compress_pmps p else env.canonicalize_to p) ≠ p →
        (StarTPMPS.reset env st (some p) b).2 ≠ some p) := by
  refine ⟨rfl, rfl, fun hne hc => hne ?_⟩
  rw [show (StarTPMPS.reset env st (some p) b).2
        = some (if b then env.compress_pmps p else env.canonicalize_to p) from rfl] at hc
  exact Option.some.inj hc

/-- The cadence branch of the loop body never emits a chain-wide or local
compression event. -/
theorem cadenceStep_trace_kinds {Chain Op : Type} (env : Env Chain Op)
    (cfg : Config) (L : ℕ) (psi : Chain) (k : ℤ) (i j : ℕ) :
    hasFullCompress (StarTPMPS.cadenceStep env cfg L psi k i j).2.2 = false
    ∧ hasLocalCompress (StarTPMPS.cadenceStep env cfg L psi k i j).2.2 = false := by
  unfold StarTPMPS.cadenceStep
  split_ifs <;> simp [hasFullCompress, hasLocalCompress]

/-- The compression-policy branch of the loop body never emits an
ancilla-compression event. -/
theorem compressionPolicy_no_ancilla {Chain Op : Type} (env : Env Chain Op)
    (cfg : Config) (L : ℕ) (psi : Chain) (ov : ℚ) (i j : ℕ) (op : Op) :
    hasAncillaCompress (StarTPMPS.compressionPolicy env cfg L psi ov i j op).2.2 = false := by
  unfold StarTPMPS.compressionPolicy
  split_ifs <;> simp [hasAncillaCompress]

/-- C1 fails as stated: with full-sweep compression not configured
(`full_compression = False`), a sweep-turn offset triggers no chain-wide
compression — the policy branch is selected by the configuration flag, not
by the offset alone.  Concretely: chain length 4, previous offset 2,
current offset 0 (a sweep turn), two-site operator: the trace holds a
local compression and no full-sweep compression. -/
theorem claim_C1_counterexample :
    ¬ (∀ (cfg : Config) (s : LoopSt ℚ) (p : ℕ × ℕ),
        (hasFullCompress (StarTPMPS.evolveBody concEnv cfg 4 s p).2 = true ↔
          isTurn 4 p.1 s.last_start_at = true)
        ∧ (isTurn 4 p.1 s.last_start_at = false → 1 < concEnv.opLen p.2 →
            hasLocalCompress (StarTPMPS.evolveBody concEnv cfg 4 s p).2 = true)) := by
  intro h
  exact (by decide :
      ¬ hasFullCompress (StarTPMPS.evolveBody concEnv noFullCfg 4 turnLoopSt (0, 2)).2 = true)
    ((h noFullCfg turnLoopSt (0, 2)).1.mpr (by decide))

/-- The chain-wide compression event of the policy branch fires exactly
when the flag is set and the offset is a sweep turn. -/
theorem compressionPolicy_hasFull {Chain Op : Type} (env : Env Chain Op)
    (cfg : Config) (L : ℕ) (psi : Chain) (ov : ℚ) (i j : ℕ) (op : Op) :
    hasFullCompress (StarTPMPS.compressionPolicy env cfg L psi ov i j op).2.2
      = (cfg.full_compression && isTurn L i j) := by
  unfold StarTPMPS.compressionPolicy
  split_ifs with h1 h2 h2 <;> simp_all [hasFullCompress]

/-- The local-compression event of the policy branch fires exactly when
the flag is clear and the operator spans more than one site. -/
theorem compressionPolicy_hasLocal {Chain Op : Type} (env : Env Chain Op)
    (cfg : Config) (L : ℕ) (psi : Chain) (ov : ℚ) (i j : ℕ) (op : Op) :
    hasLocalCompress (StarTPMPS.compressionPolicy env cfg L psi ov i j op).2.2
      = (!cfg.full_compression && decide (1 < env.opLen op)) := by
  unfold StarTPMPS.compressionPolicy
  split_ifs with h1 h2 h2 <;> simp_all [hasLocalCompress]

/-- The policy branch's overlap accumulator: multiplied by the retained
fidelity exactly when the chain-wide compression fires, unchanged
otherwise. -/
theorem compressionPolicy_overlap {Chain Op : Type} (env : Env Chain Op)
    (cfg : Config) (L : ℕ) (psi : Chain) (ov : ℚ) (i j : ℕ) (op : Op) :
    (StarTPMPS.compressionPolicy env cfg L psi ov i j op).2.1
      = (if cfg.full_compression && isTurn L i j then ov * (env.compress psi).1 else ov) := by
  unfold StarTPMPS.compressionPolicy
  split_ifs with h1 h2 h2 <;> simp_all

/-- The trace of one loop iteration is the policy branch's trace followed
by the cadence branch's trace; its overlap is the policy branch's. -/
theorem evolveBody_parts {Chain Op : Type} (env : Env Chain Op)
    (cfg : Config) (L : ℕ) (s : LoopSt Chain) (p : ℕ × Op) :
    (StarTPMPS.evolveBody env cfg L s p).2
      = (StarTPMPS.compressionPolicy env cfg L (env.contractAt p.2 s.psi_t p.1)
          s.overlap p.1 s.last_start_at p.2).2.2
        ++ (StarTPMPS.cadenceStep env cfg L
            (StarTPMPS.compressionPolicy env cfg L (env.contractAt p.2 s.psi_t p.1)
              s.overlap p.1 s.last_start_at p.2).1
            s.pmps_compression_step p.1 s.last_start_at).2.2
    ∧ (StarTPMPS.evolveBody env cfg L s p).1.overlap
      = (StarTPMPS.compressionPolicy env cfg L (env.contractAt p.2 s.psi_t p.1)
          s.overlap p.1 s.last_start_at p.2).2.1 :=
  ⟨rfl, rfl⟩

/-- C1 (amended): the compression policy after each contraction is
selected by the `full_compression` configuration flag.  When the flag is
set, a chain-wide compression fires exactly at sweep-turn offsets and its
retained fidelity multiplies the per-step overlap accumulator; when it is
clear, a local rank reduction fires exactly when the local operator spans
more than one site.  At most one of the two fires, and whenever no
chain-wide compression fires the overlap accumulator is unchanged. -/
theorem claim_C1_amended_policy_by_flag {Chain Op : Type} (env : Env Chain Op)
    (cfg : Config) (L : ℕ) (s : LoopSt Chain) (p : ℕ × Op) :
    (hasFullCompress (StarTPMPS.evolveBody env cfg L s p).2 = true ↔
      (cfg.full_compression = true ∧ isTurn L p.1 s.last_start_at = true))
    ∧ (hasLocalCompress (StarTPMPS.evolveBody env cfg L s p).2 = true ↔
      (cfg.full_compression = false ∧ 1 < env.opLen p.2))
    ∧ ¬ (hasFullCompress (StarTPMPS.evolveBody env cfg L s p).2 = true
        ∧ hasLocalCompress (StarTPMPS.evolveBody env cfg L s p).2 = true)
    ∧ (hasFullCompress (StarTPMPS.evolveBody env cfg L s p).2 = false →
        (StarTPMPS.evolveBody env cfg L s p).1.overlap = s.overlap)
    ∧ (cfg.full_compression = true → isTurn L p.1 s.last_start_at = true →
        (StarTPMPS.evolveBody env cfg L s p).1.overlap
          = s.overlap * (env.compress (env.contractAt p.2 s.psi_t p.1)).1) := by
  obtain ⟨htr, hov⟩ := evolveBody_parts env cfg L s p
  obtain ⟨hcf, hcl⟩ := cadenceStep_trace_kinds env cfg L
    ((StarTPMPS.compressionPolicy env cfg L (env.contractAt p.2 s.psi_t p.1)
        s.overlap p.1 s.last_start_at p.2).1)
    s.pmps_compression_step p.1 s.last_start_at
  have hfull : hasFullCompress (StarTPMPS.evolveBody env cfg L s p).2
      = (cfg.full_compression && isTurn L p.1 s.last_start_at) := by
    rw [htr]
    simp only [hasFullCompress] at hcf ⊢
    rw [List.any_append, hcf, Bool.or_false]
    exact compressionPolicy_hasFull env cfg L _ s.overlap p.1 s.last_start_at p.2
  have hloc : hasLocalCompress (StarTPMPS.evolveBody env cfg L s p).2
      = (!cfg.full_compression && decide (1 < env.opLen p.2)) := by
    rw [htr]
    simp only [hasLocalCompress] at hcl ⊢
    rw [List.any_append, hcl, Bool.or_false]
    exact compressionPolicy_hasLocal env cfg L _ s.overlap p.1 s.last_start_at p.2
  have hovr := compressionPolicy_overlap env cfg L (env.contractAt p.2 s.psi_t p.1)
    s.overlap p.1 s.last_start_at p.2
  refine ⟨?_, ?_, ?_, ?_, ?_⟩
  · rw [hfull]; simp
  · rw [hloc]; simp
  · rw [hfull, hloc]
    rintro ⟨h1, h2⟩
    rcases Bool.and_eq_true .. |>.mp h1 with ⟨ha, _⟩
    rcases Bool.and_eq_true .. |>.mp h2 with ⟨hb, _⟩
    simp [ha] at hb
  · intro hno
    rw [hfull] at hno
    rw [hov, hovr, hno]
    simp
  · intro h1 h2
    rw [hov, hovr, h1, h2]
    simp

/-- C2: at every sweep-turn offset the ancilla-compression cadence
counter is advanced, and whenever it reaches the configured period the
ancilla-rank compressor runs over the whole chain and the counter is
reset to zero.  The cadence counter — the number of sweep turns since the
last ancilla compression — is stored as `pmps_compression_step - 1`
(construction starts the field at 1, i.e. counter 0, and a firing resets
the field to 1, i.e. counter 0). -/
theorem claim_C2_cadence_counter {Chain Op : Type} (env : Env Chain Op)
    (cfg : Config) (L : ℕ) (s : LoopSt Chain) (p : ℕ × Op)
    (hturn : isTurn L p.1 s.last_start_at = true) :
    ((s.pmps_compression_step - 1) + 1 = cfg.compress_sites_step →
      hasAncillaCompress (StarTPMPS.evolveBody env cfg L s p).2 = true
      ∧ (StarTPMPS.evolveBody env cfg L s p).1.pmps_compression_step - 1 = 0)
    ∧ ((s.pmps_compression_step - 1) + 1 ≠ cfg.compress_sites_step →
      hasAncillaCompress (StarTPMPS.evolveBody env cfg L s p).2 = false
      ∧ (StarTPMPS.evolveBody env cfg L s p).1.pmps_compression_step - 1
          = (s.pmps_compression_step - 1) + 1) := by
  have hpa := compressionPolicy_no_ancilla env cfg L
    (env.contractAt p.2 s.psi_t p.1) s.overlap p.1 s.last_start_at p.2
  have hanc : hasAncillaCompress (StarTPMPS.evolveBody env cfg L s p).2
      = hasAncillaCompress (StarTPMPS.cadenceStep env cfg L
          (StarTPMPS.compressionPolicy env cfg L (env.contractAt p.2 s.psi_t p.1)
            s.overlap p.1 s.last_start_at p.2).1
          s.pmps_compression_step p.1 s.last_start_at).2.2 := by
    rw [(evolveBody_parts env cfg L s p).1]
    simp only [hasAncillaCompress] at hpa ⊢
    rw [List.any_append, hpa, Bool.false_or]
  have hpcs : (StarTPMPS.evolveBody env cfg L s p).1.pmps_compression_step
      = (StarTPMPS.cadenceStep env cfg L
          (StarTPMPS.compressionPolicy env cfg L (env.contractAt p.2 s.psi_t p.1)
            s.overlap p.1 s.last_start_at p.2).1
          s.pmps_compression_step p.1 s.last_start_at).2.1 := rfl
  constructor
  · intro hc
    have hp : s.pmps_compression_step = cfg.compress_sites_step := by omega
    rw [hanc, hpcs]
    simp [StarTPMPS.cadenceStep, hturn, hp, hasAncillaCompress]
  · intro hc
    have hp : ¬ s.pmps_compression_step = cfg.compress_sites_step := by omega
    rw [hanc, hpcs]
    simp [StarTPMPS.cadenceStep, hturn, hp, hasAncillaCompress]

/-- C2 witness: with cadence period 3 and a loop state two turns past the
last ancilla compression, offset 0 after previous offset 2 is a sweep
turn, the counter reaches the period, the ancilla compressor runs and the
counter is reset to zero. -/
theorem claim_C2_cadence_counter_witness :
    hasAncillaCompress (StarTPMPS.evolveBody concEnv cadCfg 4 cadLoopSt (0, 2)).2 = true
    ∧ (StarTPMPS.evolveBody concEnv cadCfg 4 cadLoopSt (0, 2)).1.pmps_compression_step - 1 = 0 :=
  (claim_C2_cadence_counter concEnv cadCfg 4 cadLoopSt (0, 2) (by decide)).1 (by decide)

/-- One `evolve` call increments the step counter by one. -/
theorem evolve_stepno {Chain Op : Type} (env : Env Chain Op) (cfg : Config)
    (prop : Propagator Op) (st : TPMPS Chain) :
    (StarTPMPS.evolve env cfg prop st).1.stepno = st.stepno + 1 :=
  rfl

/-- One `evolve` call adds the propagator's per-step Trotter error
estimate to the accumulated error. -/
theorem evolve_trotter_error {Chain Op : Type} (env : Env Chain Op) (cfg : Config)
    (prop : Propagator Op) (st : TPMPS Chain) :
    (StarTPMPS.evolve env cfg prop st).1.trotter_error
      = st.trotter_error + prop.step_trotter_error :=
  rfl

/-- One `evolve` call leaves the base overlap unchanged. -/
theorem evolve_base_overlap {Chain Op : Type} (env : Env Chain Op) (cfg : Config)
    (prop : Propagator Op) (st : TPMPS Chain) :
    (StarTPMPS.evolve env cfg prop st).1.base_overlap = st.base_overlap :=
  rfl

/-- One `evolve` call multiplies the cumulative overlap by the per-step
overlap committed at the end of the sweep. -/
theorem evolve_cumulative_overlap {Chain Op : Type} (env : Env Chain Op) (cfg : Config)
    (prop : Propagator Op) (st : TPMPS Chain) :
    (StarTPMPS.evolve env cfg prop st).1.cumulative_overlap
      = st.cumulative_overlap
        * (StarTPMPS.evolveFinal env cfg (StarTPMPS.evolveLoop env cfg prop st).1).2.1 :=
  rfl

/-- C6: starting from a freshly constructed or freshly reset orchestrator
(step counter 0, accumulated error 0), after any sequence of `N` evolve
calls the step counter equals `N` and the accumulated Trotter error
equals `N` times the propagator's (constant) per-step estimate; when that
estimate is non-negative the accumulated error is non-decreasing from
step `N` to step `N + 1`. -/
theorem claim_C6_stepno_and_error {Chain Op : Type} (env : Env Chain Op)
    (cfg : Config) (prop : Propagator Op) (st : TPMPS Chain)
    (h0 : st.stepno = 0) (h1 : st.trotter_error = 0) (N : ℕ) :
    (StarTPMPS.evolveN env cfg prop N st).stepno = N
    ∧ (StarTPMPS.evolveN env cfg prop N st).trotter_error
        = (N : ℚ) * prop.step_trotter_error
    ∧ (0 ≤ prop.step_trotter_error →
        (StarTPMPS.evolveN env cfg prop N st).trotter_error
          ≤ (StarTPMPS.evolveN env cfg prop (N + 1) st).trotter_error) := by
  have he : ∀ M : ℕ, (StarTPMPS.evolveN env cfg prop M st).trotter_error
      = (M : ℚ) * prop.step_trotter_error := by
    intro M
    induction M with
    | zero => simpa [StarTPMPS.evolveN] using h1
    | succ k ih =>
        rw [show StarTPMPS.evolveN env cfg prop (k + 1) st
              = (StarTPMPS.evolve env cfg prop (StarTPMPS.evolveN env cfg prop k st)).1 from rfl,
          evolve_trotter_error, ih]
        push_cast
        ring
  refine ⟨?_, he N, fun hpos => ?_⟩
  · induction N with
    | zero => simpa [StarTPMPS.evolveN] using h0
    | succ k ih =>
        rw [show StarTPMPS.evolveN env cfg prop (k + 1) st
              = (StarTPMPS.evolve env cfg prop (StarTPMPS.evolveN env cfg prop k st)).1 from rfl,
          evolve_stepno, ih]
  · rw [he N, he (N + 1)]
    push_cast
    nlinarith [hpos]

/-- C6 witness: two evolve calls on a fresh orchestrator over the
concrete star propagator give step counter 2 and accumulated error
2 times the unit per-step estimate, non-decreasing into the third
step. -/
theorem claim_C6_stepno_and_error_witness :
    (StarTPMPS.evolveN concEnv concCfg concProp 2 concSt).stepno = 2
    ∧ (StarTPMPS.evolveN concEnv concCfg concProp 2 concSt).trotter_error
        = ((2 : ℕ) : ℚ) * concProp.step_trotter_error
    ∧ (0 ≤ concProp.step_trotter_error →
        (StarTPMPS.evolveN concEnv concCfg concProp 2 concSt).trotter_error
          ≤ (StarTPMPS.evolveN concEnv concCfg concProp (2 + 1) concSt).trotter_error) :=
  claim_C6_stepno_and_error concEnv concCfg concProp concSt rfl rfl 2

/-- If every chain compression retains a fidelity in (0, 1], the policy
branch keeps the per-step overlap accumulator in (0, 1]. -/
theorem compressionPolicy_overlap_bounds {Chain Op : Type} (env : Env Chain Op)
    (cfg : Config) (L : ℕ) (psi : Chain) (ov : ℚ) (i j : ℕ) (op : Op)
    (hcomp : ∀ c : Chain, 0 < (env.compress c).1 ∧ (env.compress c).1 ≤ 1)
    (h1 : 0 < ov) (h2 : ov ≤ 1) :
    0 < (StarTPMPS.compressionPolicy env cfg L psi ov i j op).2.1
    ∧ (StarTPMPS.compressionPolicy env cfg L psi ov i j op).2.1 ≤ 1 := by
  rw [compressionPolicy_overlap]
  split_ifs with h
  · obtain ⟨hf1, hf2⟩ := hcomp psi
    exact ⟨mul_pos h1 hf1, by nlinarith⟩
  · exact ⟨h1, h2⟩

/-- If every chain compression retains a fidelity in (0, 1], one loop
iteration keeps the per-step overlap accumulator in (0, 1]. -/
theorem evolveBody_overlap_bounds {Chain Op : Type} (env : Env Chain Op)
    (cfg : Config) (L : ℕ) (s : LoopSt Chain) (p : ℕ × Op)
    (hcomp : ∀ c : Chain, 0 < (env.compress c).1 ∧ (env.compress c).1 ≤ 1)
    (h1 : 0 < s.overlap) (h2 : s.overlap ≤ 1) :
    0 < (StarTPMPS.evolveBody env cfg L s p).1.overlap
    ∧ (StarTPMPS.evolveBody env cfg L s p).1.overlap ≤ 1 := by
  rw [(evolveBody_parts env cfg L s p).2]
  exact compressionPolicy_overlap_bounds env cfg L _ s.overlap p.1 s.last_start_at p.2
    hcomp h1 h2

/-- If every chain compression retains a fidelity in (0, 1], the whole
sweep keeps the per-step overlap accumulator in (0, 1]. -/
theorem runSweep_overlap_bounds {Chain Op : Type} (env : Env Chain Op)
    (cfg : Config) (L : ℕ)
    (hcomp : ∀ c : Chain, 0 < (env.compress c).1 ∧ (env.compress c).1 ≤ 1)
    (steps : List (ℕ × Op)) :
    ∀ acc : LoopSt Chain × List CompEvent, 0 < acc.1.overlap → acc.1.overlap ≤ 1 →
      0 < (StarTPMPS.runSweep env cfg L acc steps).1.overlap
      ∧ (StarTPMPS.runSweep env cfg L acc steps).1.overlap ≤ 1 := by
  induction steps with
  | nil => intro acc h1 h2; exact ⟨h1, h2⟩
  | cons p rest ih =>
      intro acc h1 h2
      have hb := evolveBody_overlap_bounds env cfg L acc.1 p hcomp h1 h2
      exact ih ((StarTPMPS.evolveBody env cfg L acc.1 p).1,
        acc.2 ++ (StarTPMPS.evolveBody env cfg L acc.1 p).2) hb.1 hb.2

/-- If every chain compression retains a fidelity in (0, 1], the
epilogue of the sweep keeps the per-step overlap in (0, 1]. -/
theorem evolveFinal_overlap_bounds {Chain Op : Type} (env : Env Chain Op)
    (cfg : Config) (fin : LoopSt Chain)
    (hcomp : ∀ c : Chain, 0 < (env.compress c).1 ∧ (env.compress c).1 ≤ 1)
    (h1 : 0 < fin.overlap) (h2 : fin.overlap ≤ 1) :
    0 < (StarTPMPS.evolveFinal env cfg fin).2.1
    ∧ (StarTPMPS.evolveFinal env cfg fin).2.1 ≤ 1 := by
  unfold StarTPMPS.evolveFinal
  split_ifs with ha hb
  · obtain ⟨hf1, hf2⟩ := hcomp fin.psi_t
    dsimp only
    exact ⟨mul_pos h1 hf1, by nlinarith⟩
  · exact ⟨h1, h2⟩
  · exact ⟨h1, h2⟩

/-- If every chain compression retains a fidelity in (0, 1] and the base
overlap is 1, one `evolve` call keeps the cumulative overlap in (0, 1]
and never increases it; the base overlap stays 1. -/
theorem evolve_overlap_invariant {Chain Op : Type} (env : Env Chain Op)
    (cfg : Config) (prop : Propagator Op) (st : TPMPS Chain)
    (hcomp : ∀ c : Chain, 0 < (env.compress c).1 ∧ (env.compress c).1 ≤ 1)
    (hb : st.base_overlap = 1)
    (h1 : 0 < st.cumulative_overlap) (h2 : st.cumulative_overlap ≤ 1) :
    (StarTPMPS.evolve env cfg prop st).1.base_overlap = 1
    ∧ 0 < (StarTPMPS.evolve env cfg prop st).1.cumulative_overlap
    ∧ (StarTPMPS.evolve env cfg prop st).1.cumulative_overlap ≤ 1
    ∧ (StarTPMPS.evolve env cfg prop st).1.cumulative_overlap ≤ st.cumulative_overlap := by
  have hloop := runSweep_overlap_bounds env cfg prop.L hcomp prop.trotter_steps
    (⟨if !cfg.canonicalize_every_step then env.canonicalize_to st.psi_t else st.psi_t,
      st.base_overlap, st.pmps_compression_step, prop.system_index⟩,
     if !cfg.canonicalize_every_step then [CompEvent.canonicalize] else [])
    (by simp [hb]) (by simp [hb])
  have hfin := evolveFinal_overlap_bounds env cfg
    (StarTPMPS.evolveLoop env cfg prop st).1 hcomp
    (by simpa [StarTPMPS.evolveLoop] using hloop.1)
    (by simpa [StarTPMPS.evolveLoop] using hloop.2)
  refine ⟨evolve_base_overlap env cfg prop st ▸ hb, ?_, ?_, ?_⟩ <;>
    rw [evolve_cumulative_overlap]
  · exact mul_pos h1 hfin.1
  · nlinarith [hfin.1, hfin.2]
  · exact mul_le_of_le_one_right h1.le hfin.2

/-- C7: under the hypothesis that every chain-compression call retains a
fidelity in (0, 1], the cumulative overlap is in (0, 1] right after
construction and after every number of evolve calls, and it never
increases from one evolve call to the next (each per-step multiplier is
at most 1, starting from the base value 1). -/
theorem claim_C7_cumulative_overlap {Chain Op : Type} (env : Env Chain Op)
    (cfg : Config) (prop : Propagator Op)
    (hcomp : ∀ c : Chain, 0 < (env.compress c).1 ∧ (env.compress c).1 ≤ 1)
    (psi_0 : Chain) (b : Bool) (st0 : TPMPS Chain)
    (hinit : StarTPMPS.init env prop psi_0 b = some st0) (N : ℕ) :
    (0 < st0.cumulative_overlap ∧ st0.cumulative_overlap ≤ 1)
    ∧ (0 < (StarTPMPS.evolveN env cfg prop N st0).cumulative_overlap
        ∧ (StarTPMPS.evolveN env cfg prop N st0).cumulative_overlap ≤ 1)
    ∧ (StarTPMPS.evolveN env cfg prop (N + 1) st0).cumulative_overlap
        ≤ (StarTPMPS.evolveN env cfg prop N st0).cumulative_overlap := by
  have hfields : st0.base_overlap = 1 ∧ st0.cumulative_overlap = 1 := by
    unfold StarTPMPS.init at hinit
    split at hinit
    · have hx := Option.some.inj hinit
      subst hx
      exact ⟨rfl, rfl⟩
    · exact absurd hinit (by simp)
  have hInv : ∀ M : ℕ, (StarTPMPS.evolveN env cfg prop M st0).base_overlap = 1
      ∧ 0 < (StarTPMPS.evolveN env cfg prop M st0).cumulative_overlap
      ∧ (StarTPMPS.evolveN env cfg prop M st0).cumulative_overlap ≤ 1 := by
    intro M
    induction M with
    | zero =>
        refine ⟨hfields.1, ?_, ?_⟩ <;> simp [StarTPMPS.evolveN, hfields.2]
    | succ k ih =>
        have h := evolve_overlap_invariant env cfg prop
          (StarTPMPS.evolveN env cfg prop k st0) hcomp ih.1 ih.2.1 ih.2.2
        exact ⟨h.1, h.2.1, h.2.2.1⟩
  refine ⟨⟨?_, ?_⟩, ⟨(hInv N).2.1, (hInv N).2.2⟩, ?_⟩
  · rw [hfields.2]; exact one_pos
  · rw [hfields.2]
  · exact (evolve_overlap_invariant env cfg prop
      (StarTPMPS.evolveN env cfg prop N st0) hcomp
      (hInv N).1 (hInv N).2.1 (hInv N).2.2).2.2.2

/-- C7 witness: over the concrete environment (every compression retains
fidelity 1) and the concrete star propagator, the freshly constructed
state has cumulative overlap in (0, 1], still has it after one evolve
call, and the overlap does not increase into the second call. -/
theorem claim_C7_cumulative_overlap_witness :
    (0 < concSt.cumulative_overlap ∧ concSt.cumulative_overlap ≤ 1)
    ∧ (0 < (StarTPMPS.evolveN concEnv concCfg concProp 1 concSt).cumulative_overlap
        ∧ (StarTPMPS.evolveN concEnv concCfg concProp 1 concSt).cumulative_overlap ≤ 1)
    ∧ (StarTPMPS.evolveN concEnv concCfg concProp (1 + 1) concSt).cumulative_overlap
        ≤ (StarTPMPS.evolveN concEnv concCfg concProp 1 concSt).cumulative_overlap :=
  claim_C7_cumulative_overlap concEnv concCfg concProp
    (fun c => by norm_num [concEnv]) 1 false concSt
    (by norm_num [StarTPMPS.init, StarTPMPS.normalize_state, concEnv, concProp, concSt]) 1
